import Mathlib

/-!
Verification of mgrog/mail_assistant against its natural-language specification.

Shallow embedding of the Rust sources:
  * src/server/src/prompt/priority_queue.rs   (PromptPriorityQueue)
  * src/server/src/email/processor/email_processor.rs (EmailProcessor)
  * src/server/src/email/client.rs            (build_label_update,
                                               configure_labels_if_needed)

Machine integers: `u128` message ids are embedded as `Nat` (all operations in
the source stay within range or are checked, as `u128::from_str_radix` is);
`i64` counters are embedded as `Int`.  `f32` confidence values are embedded as
`ℚ`: the only operation the source performs on them is the order comparison
`confidence < threshold`, which agrees with IEEE comparison on exact values.
Fallible Rust code (`anyhow::Result`, panics via `expect`) is embedded as
`Except`/`Option`.
-/

namespace MailAssistant

/-! ### String helpers

Rust's `str::contains(pat)` (substring containment), used by
`configure_labels_if_needed` (`n.contains("mailclerk:")`), by the heuristic
override (`from.contains(&c.content)`) and as the faithful meaning of the
regex `CATEGORY_+`'s `is_match` in `build_label_update` (the regex matches
exactly the strings containing the substring "CATEGORY_").
-/

/-- Substring containment on `List Char`: some suffix of `s` starts with `pat`. -/
def charListContainsSub (s pat : List Char) : Bool :=
  match s with
  | [] => pat.isEmpty
  | _ :: rest => pat.isPrefixOf s || charListContainsSub rest pat

/-- Embedding of Rust `str::contains` for string patterns. -/
def strContainsSub (s pat : String) : Bool :=
  charListContainsSub s.toList pat.toList

/-! ### Priority queue (src/server/src/prompt/priority_queue.rs)

`Arc<Mutex<...>>` cells are embedded as plain fields of a state record; every
public method of `PromptPriorityQueue` locks all the cells it touches for its
whole body, so each method is one atomic state transition.

The `BinaryHeap<PromptQueueEmailEntry>` is embedded as the list of its
elements; `BinaryHeap::push` adds the element, and `BinaryHeap::pop` removes
and returns a greatest element w.r.t. `Ord for PromptQueueEmailEntry`, which
compares by priority only (`High > Low`, everything else `Equal`).  `heapPop`
below therefore removes a `High` entry when one is present, and otherwise an
arbitrary (the first) entry.  The `HashMap<String, QueueCount>` is embedded as
an association list, the `HashSet<u128>` as a list of ids.
-/

inductive Priority where
  | High
  | Low
deriving DecidableEq, Repr

structure PromptQueueEmailEntry where
  user_email : String
  email_id : Nat
  priority : Priority
deriving DecidableEq, Repr

structure QueueCount where
  high_priority : Nat
  low_priority : Nat
deriving DecidableEq, Repr

structure PromptPriorityQueue where
  queue : List PromptQueueEmailEntry
  num_in_queue_by_email_address : List (String × QueueCount)
  in_processing_set : List Nat
deriving DecidableEq, Repr

/-- Embedding of
`num_in_queue_by_email_address.entry(user_email).and_modify(...).or_insert(...)`
in `push`: bump the counter of the given priority for the given key, creating
a fresh `QueueCount` when the key is absent. -/
def bumpCount (user_email : String) (priority : Priority) :
    List (String × QueueCount) → List (String × QueueCount)
  | [] =>
    [(user_email,
      if priority = Priority.High then ⟨1, 0⟩ else ⟨0, 1⟩)]
  | (k, c) :: rest =>
    if k = user_email then
      (k, if priority = Priority.High then
            ⟨c.high_priority + 1, c.low_priority⟩
          else
            ⟨c.high_priority, c.low_priority + 1⟩) :: rest
    else
      (k, c) :: bumpCount user_email priority rest

/-- Embedding of `PromptPriorityQueue::push` (priority_queue.rs lines 59-96).
`in_processing_set.insert(email_id)` returning `false` (already present) makes
`push` return `false` with nothing mutated; otherwise the entry is pushed on
the heap, the id is added to the in-processing set and the per-email counter
of the given priority is bumped. -/
def PromptPriorityQueue.push (q : PromptPriorityQueue) (user_email : String)
    (email_id : Nat) (priority : Priority) : Bool × PromptPriorityQueue :=
  if q.in_processing_set.contains email_id then
    (false, q)
  else
    (true,
      { queue := ⟨user_email, email_id, priority⟩ :: q.queue
        num_in_queue_by_email_address :=
          bumpCount user_email priority q.num_in_queue_by_email_address
        in_processing_set := email_id :: q.in_processing_set })

/-- Removal of a greatest element of the binary heap: the first `High` entry
when one exists, otherwise the first entry.  All `High` entries compare
`Equal` to each other (and so do all `Low` ones), so any `High` entry is a
greatest element. -/
def heapPop : List PromptQueueEmailEntry →
    Option (PromptQueueEmailEntry × List PromptQueueEmailEntry)
  | [] => none
  | e :: rest =>
    if e.priority = Priority.High then
      some (e, rest)
    else
      match heapPop rest with
      | some (x, rest') =>
        if x.priority = Priority.High then some (x, e :: rest') else some (e, rest)
      | none => some (e, rest)

/-- Embedding of the per-email counter adjustment in `pop`
(priority_queue.rs lines 105-118): a `(0, 0)` counter is removed outright,
otherwise the field of the popped priority is decremented. -/
def decrCount (user_email : String) (priority : Priority) :
    List (String × QueueCount) → List (String × QueueCount)
  | [] => []
  | (k, c) :: rest =>
    if k = user_email then
      if c.high_priority = 0 ∧ c.low_priority = 0 then
        rest
      else
        (k, if priority = Priority.High then
              ⟨c.high_priority - 1, c.low_priority⟩
            else
              ⟨c.high_priority, c.low_priority - 1⟩) :: rest
    else
      (k, c) :: decrCount user_email priority rest

/-- Embedding of `PromptPriorityQueue::pop` (priority_queue.rs lines 98-124). -/
def PromptPriorityQueue.pop (q : PromptPriorityQueue) :
    Option PromptQueueEmailEntry × PromptPriorityQueue :=
  match heapPop q.queue with
  | none => (none, q)
  | some (entry, rest) =>
    (some entry,
      { queue := rest
        num_in_queue_by_email_address :=
          decrCount entry.user_email entry.priority q.num_in_queue_by_email_address
        in_processing_set := q.in_processing_set })

/-- Embedding of `PromptPriorityQueue::remove_from_processing`
(priority_queue.rs lines 126-129). -/
def PromptPriorityQueue.remove_from_processing (q : PromptPriorityQueue)
    (email_id : Nat) : PromptPriorityQueue :=
  { q with in_processing_set := q.in_processing_set.filter (fun x => x ≠ email_id) }

/-- Counter lookup on the association list: the `.get(email).map(...)
.unwrap_or(0)` pattern of the `num_*_in_queue` queries. -/
def countIn (m : List (String × QueueCount)) (user_email : String)
    (priority : Priority) : Nat :=
  match m with
  | [] => 0
  | (k, c) :: rest =>
    if k = user_email then
      match priority with
      | Priority.High => c.high_priority
      | Priority.Low => c.low_priority
    else countIn rest user_email priority

/-- Per-email counter of one priority, as read back by
`num_high_priority_in_queue` / `num_low_priority_in_queue`. -/
def countOf (q : PromptPriorityQueue) (user_email : String) (priority : Priority) : Nat :=
  countIn q.num_in_queue_by_email_address user_email priority

/-! ### The queue-and-workers transition system

`remove_from_processing(email_id)` is invoked by the worker loop
(src/server/src/email/tasks.rs lines 88-94) only for the id of the entry that
this very worker has just popped from the queue.  The system state therefore
also tracks `held`, the ids popped by workers and not yet released.  The three
transitions are exactly the three queue operations as the program uses them:
an arbitrary `push`, a `pop` whose returned entry the worker holds, and a
release of a held id.
-/

structure SystemState where
  pq : PromptPriorityQueue
  held : List Nat
deriving DecidableEq, Repr

def initialSystem : SystemState :=
  { pq := { queue := [], num_in_queue_by_email_address := [], in_processing_set := [] }
    held := [] }

inductive SysStep : SystemState → SystemState → Prop where
  | push (s : SystemState) (user_email : String) (email_id : Nat) (p : Priority) :
      SysStep s ⟨(s.pq.push user_email email_id p).2, s.held⟩
  | pop_some (s : SystemState) (e : PromptQueueEmailEntry) (pq' : PromptPriorityQueue)
      (h : s.pq.pop = (some e, pq')) :
      SysStep s ⟨pq', e.email_id :: s.held⟩
  | pop_none (s : SystemState) (pq' : PromptPriorityQueue)
      (h : s.pq.pop = (none, pq')) :
      SysStep s ⟨pq', s.held⟩
  | finish (s : SystemState) (email_id : Nat) (h : email_id ∈ s.held) :
      SysStep s ⟨s.pq.remove_from_processing email_id, s.held.erase email_id⟩

/-- States of the queue-and-workers system reachable from startup. -/
def SysReachable (s : SystemState) : Prop :=
  Relation.ReflTransGen SysStep initialSystem s

/-! ### Configuration data (src/server/src/server_config.rs)

`Category` mirrors the `Category` struct.  `UNKNOWN_CATEGORY` and
`DAILY_SUMMARY_CATEGORY` are the two `lazy_static` constants
(server_config.rs lines 175-186).  The contents of `config.toml`
(`cfg.categories`, `cfg.heuristics`, `cfg.model.email_confidence_threshold`,
`cfg.api.token_limits.daily_user_quota`, `cfg.settings.training_mode`) are not
in the repository, so they are universally quantified parameters below. -/

structure Category where
  content : String
  mail_label : String
  gmail_categories : List String
  important : Option Bool
deriving DecidableEq, Repr

def UNKNOWN_CATEGORY : Category :=
  { content := "Unknown", mail_label := "uncategorized",
    gmail_categories := [], important := none }

def DAILY_SUMMARY_CATEGORY : Category :=
  { content := "", mail_label := "daily_summary",
    gmail_categories := [], important := none }

/-! ### Processor state (src/server/src/email/processor/email_processor.rs)

The `Arc<AtomicI64>` / `Arc<AtomicBool>` cells of `EmailProcessor` are
embedded as plain fields; every method reads or writes a single cell (relaxed
atomics, single value), so each method is one state transition.  `DAILY_QUOTA`
(`cfg.api.token_limits.daily_user_quota as i64`) is the parameter `dq`. -/

structure EmailProcessor where
  processed_email_count : Int
  failed_email_count : Int
  token_count : Int
  cancelled : Bool
  failed : Bool
deriving DecidableEq, Repr

inductive ProcessorStatus where
  | ProcessingHP
  | ProcessingLP
  | Idle
  | Cancelled
  | QuotaExceeded
  | Failed
deriving DecidableEq, Repr

def EmailProcessor.fail (p : EmailProcessor) : EmailProcessor :=
  { p with failed := true }

def EmailProcessor.cancel (p : EmailProcessor) : EmailProcessor :=
  { p with cancelled := true }

/-- Embedding of `reset_quota` (email_processor.rs lines 365-367):
`self.token_count.store(0, Relaxed)`. -/
def EmailProcessor.reset_quota (p : EmailProcessor) : EmailProcessor :=
  { p with token_count := 0 }

def EmailProcessor.set_token_count (p : EmailProcessor) (tokens : Int) : EmailProcessor :=
  { p with token_count := tokens }

def EmailProcessor.fetch_add_token_count (p : EmailProcessor) (tokens : Int) : EmailProcessor :=
  { p with token_count := p.token_count + tokens }

def EmailProcessor.fetch_add_total_emails_processed (p : EmailProcessor) (count : Int) :
    EmailProcessor :=
  { p with processed_email_count := p.processed_email_count + count }

def EmailProcessor.fetch_add_total_emails_failed (p : EmailProcessor) (count : Int) :
    EmailProcessor :=
  { p with failed_email_count := p.failed_email_count + count }

def EmailProcessor.is_quota_reached (dq : Int) (p : EmailProcessor) : Bool :=
  p.token_count ≥ dq

def EmailProcessor.is_cancelled (p : EmailProcessor) : Bool := p.cancelled

def EmailProcessor.is_failed (p : EmailProcessor) : Bool := p.failed

def EmailProcessor.current_token_usage (p : EmailProcessor) : Int := p.token_count

/-- Embedding of `EmailProcessor::status` (email_processor.rs lines 654-675).
`hp` and `lp` are the values of `num_high_priority_in_queue` and
`num_low_priority_in_queue` for this processor's email address. -/
def EmailProcessor.status (dq : Int) (p : EmailProcessor) (hp lp : Nat) : ProcessorStatus :=
  if p.is_cancelled then ProcessorStatus.Cancelled
  else if p.is_quota_reached dq then ProcessorStatus.QuotaExceeded
  else if p.is_failed then ProcessorStatus.Failed
  else if hp > 0 then ProcessorStatus.ProcessingHP
  else if lp > 0 then ProcessorStatus.ProcessingLP
  else ProcessorStatus.Idle

/-- Terminal statuses per the spec (`Cancelled | Failed | QuotaExceeded`). -/
def terminalStatus (s : ProcessorStatus) : Bool :=
  s = ProcessorStatus.Cancelled ∨ s = ProcessorStatus.Failed ∨
    s = ProcessorStatus.QuotaExceeded

/-- Outcome of `run_email_processes` for one message, as observed by
`process_email`: either the classification pipeline succeeded with a token
usage (and `add_tally_to_user_daily_quota` either returned the canonical tally
from the database or failed, in which case the error is only logged), or it
failed (and the label-repair path inside `parse_and_prompt_email` may have set
the `failed` flag via `self.fail()`, email_processor.rs line 467). -/
inductive ProcOutcome where
  | success (token_usage : Int) (tally : Option Int)
  | failure (labelRepairFailed : Bool)
deriving DecidableEq, Repr

/-- Embedding of `EmailProcessor::process_email` (email_processor.rs lines
518-542).  The returned `Bool` records whether `run_email_processes` was
invoked at all (message fetched, classifier called, database touched); the
two early returns yield `false` there and leave the state untouched. -/
def EmailProcessor.process_email (dq : Int) (p : EmailProcessor) (priority : Priority)
    (outcome : ProcOutcome) : EmailProcessor × Bool :=
  if p.is_cancelled || p.is_quota_reached dq || p.is_failed then
    (p, false)
  else if decide (dq - p.current_token_usage < 100000) && decide (priority = Priority.Low) then
    (p, false)
  else
    match outcome with
    | ProcOutcome.success token_usage tally =>
      let p := p.fetch_add_total_emails_processed 1
      let p := p.fetch_add_token_count token_usage
      let p :=
        match tally with
        | some updated_tally =>
          if token_usage = 0 then p else p.set_token_count updated_tally
        | none => p
      (p, true)
    | ProcOutcome.failure labelRepairFailed =>
      let p := if labelRepairFailed then p.fail else p
      (p.fetch_add_total_emails_failed 1, true)

/-- One processor-facing operation of claim C6's list, with the oracle data a
run of the operation consumes. -/
inductive ProcOp where
  | cancel
  | fail
  | reset_quota
  | set_token_count (tokens : Int)
  | fetch_add_token_count (tokens : Int)
  | fetch_add_total_emails_processed (count : Int)
  | fetch_add_total_emails_failed (count : Int)
  | process_email (priority : Priority) (outcome : ProcOutcome)
deriving DecidableEq, Repr

def applyProcOp (dq : Int) (p : EmailProcessor) : ProcOp → EmailProcessor
  | ProcOp.cancel => p.cancel
  | ProcOp.fail => p.fail
  | ProcOp.reset_quota => p.reset_quota
  | ProcOp.set_token_count t => p.set_token_count t
  | ProcOp.fetch_add_token_count t => p.fetch_add_token_count t
  | ProcOp.fetch_add_total_emails_processed n => p.fetch_add_total_emails_processed n
  | ProcOp.fetch_add_total_emails_failed n => p.fetch_add_total_emails_failed n
  | ProcOp.process_email priority outcome => (p.process_email dq priority outcome).1

def applyProcOps (dq : Int) (ops : List ProcOp) (p : EmailProcessor) : EmailProcessor :=
  ops.foldl (applyProcOp dq) p

/-! ### Classification pipeline (`parse_and_prompt_email`)

Embedding of `EmailProcessor::parse_and_prompt_email` (email_processor.rs
lines 369-503).  The calls that leave the process (classifier prompt, training
row upsert, Gmail label modification, `ProcessedEmail` insert) are oracles
passed in as arguments; everything computed from their results is embedded
from the source. -/

structure CategoryPromptResponse where
  category : String
  confidence : ℚ
  token_usage : Int
deriving DecidableEq, Repr

structure LabelUpdate where
  added : Option (List String)
  removed : Option (List String)
deriving DecidableEq, Repr

/-- Fields of the `processed_email::ActiveModel` built at email_processor.rs
lines 476-484 (the row the code attempts to insert). -/
structure ProcessedEmailRow where
  id : String
  labels_applied : Option (List String)
  labels_removed : Option (List String)
  category : String
  ai_answer : String
deriving DecidableEq, Repr

/-- Result of the `ProcessedEmailCtrl::insert` call: success, or a database
error carrying the SQL error code that `extract_database_error_code` recovers
from it (`none` when the error has no extractable code). -/
inductive InsertOutcome where
  | ok
  | dbErr (code : Option Nat)
deriving DecidableEq, Repr

/-- Fields of `EmailMessage` that `parse_and_prompt_email` reads. -/
structure EmailMessageData where
  id : String
  label_ids : List String
  from? : Option String
deriving DecidableEq, Repr

deriving instance DecidableEq for Except

/-- Observable outcome of one `parse_and_prompt_email` call: the processor
state it leaves behind (it mutates it only through `self.fail()`), its return
value, the `ProcessedEmail` row it attempted to insert (`none` when an error
aborted the call before the insert), and whether it logged the
"already processed" warning of email_processor.rs line 494. -/
structure PromptCallResult where
  processor : EmailProcessor
  result : Except String Int
  insert_row : Option ProcessedEmailRow
  warned_already_processed : Bool
deriving DecidableEq, Repr

/-- Embedding of `EmailProcessor::parse_and_prompt_email`.

Arguments mirror the source's inputs: the configuration
(`cfg.categories`, `cfg.heuristics`, `cfg.model.email_confidence_threshold`,
`cfg.settings.training_mode`), the processor state, the sanitized message,
and the four external-call results (`mistral::send_category_prompt`, the
`EmailTraining` upsert, `email_client.label_email` together with the
`configure_labels_if_needed` repair attempted on its failure, and
`ProcessedEmailCtrl::insert`). -/
def parse_and_prompt_email (categories heuristics : List Category)
    (email_confidence_threshold : ℚ) (training_mode : Bool)
    (p : EmailProcessor) (email_message : EmailMessageData)
    (promptRes : Except String CategoryPromptResponse)
    (trainingRes : Except String Unit)
    (labelRes : Except String LabelUpdate)
    (repairRes : Except String Bool)
    (insertRes : InsertOutcome) : PromptCallResult :=
  match promptRes with
  | Except.error e =>
    { processor := p, result := Except.error ("Error sending prompt: " ++ e),
      insert_row := none, warned_already_processed := false }
  | Except.ok resp =>
    -- lines 396-398: the confidence gate
    let category_content :=
      if resp.confidence < email_confidence_threshold then "Unknown" else resp.category
    -- lines 400-404: category lookup, defaulting to UNKNOWN_CATEGORY
    let email_category :=
      (categories.find? (fun c : Category => c.content == category_content)).getD UNKNOWN_CATEGORY
    -- lines 406-433: heuristic override on the sender address
    let email_category :=
      match email_message.from? with
      | some fromAddr =>
        if email_category.content ≠ "Terms of Service Update" ∧
            email_category.content ≠ "Verification Code" ∧
            email_category.content ≠ "Security Alert" ∧
            heuristics.any (fun c : Category => strContainsSub fromAddr c.content) then
          -- `.find(...).unwrap()` cannot panic here: the guard's `any`
          -- guarantees a match
          (heuristics.find? (fun c : Category => strContainsSub fromAddr c.content)).getD
            UNKNOWN_CATEGORY
        else
          (categories.find? (fun c : Category => c.content == category_content)).getD UNKNOWN_CATEGORY
      | none =>
        (categories.find? (fun c : Category => c.content == category_content)).getD UNKNOWN_CATEGORY
    -- lines 435-449: training upsert, only in training mode; `?` propagates
    if training_mode ∧ trainingRes.isOk = false then
      { processor := p,
        result := Except.error "Error inserting email training data",
        insert_row := none, warned_already_processed := false }
    else
      -- lines 451-472: label the email; on failure attempt a label repair,
      -- failing the processor when the repair also fails, and re-raise
      match labelRes with
      | Except.error e =>
        let p' := match repairRes with
          | Except.ok _ => p
          | Except.error _ => p.fail
        { processor := p', result := Except.error e,
          insert_row := none, warned_already_processed := false }
      | Except.ok label_update =>
        -- lines 474-500: insert the ProcessedEmail row
        let row : ProcessedEmailRow :=
          { id := email_message.id
            labels_applied := label_update.added
            labels_removed := label_update.removed
            category := email_category.mail_label
            ai_answer := category_content }
        match insertRes with
        | InsertOutcome.ok =>
          { processor := p, result := Except.ok resp.token_usage,
            insert_row := some row, warned_already_processed := false }
        | InsertOutcome.dbErr code =>
          -- `DatabaseErrorCode::from_u32(code)` is `UniqueViolation` exactly
          -- for 23505; that case warns "already processed", every other
          -- database error is logged; neither is re-raised
          if code = some 23505 then
            { processor := p, result := Except.ok resp.token_usage,
              insert_row := some row, warned_already_processed := true }
          else
            { processor := p, result := Except.ok resp.token_usage,
              insert_row := some row, warned_already_processed := false }

/-! ### Label update construction (src/server/src/email/client.rs)

Embedding of `build_label_update` (client.rs lines 606-680).  `Label` mirrors
`google_gmail1::api::Label` restricted to the fields the function reads.  The
regex `CATEGORY_+` used with `is_match` holds exactly of strings containing
the substring "CATEGORY_". -/

structure GmailLabel where
  id : Option String
  name : Option String
deriving DecidableEq, Repr

structure CategoryInboxSetting where
  skip_inbox : Bool
  mark_spam : Bool
deriving DecidableEq, Repr

/-- Provider call body `{addLabelIds, removeLabelIds}` plus the `LabelUpdate`
record returned to the caller. -/
structure BuiltLabelUpdate where
  addLabelIds : List String
  removeLabelIds : List String
  update : LabelUpdate
deriving DecidableEq, Repr

/-- Embedding of `build_label_update`.  `inbox_settings` is the
`CategoryInboxSettingsMap` (`HashMap<String, CategoryInboxSetting>`) as an
association list. -/
def build_label_update (user_labels : List GmailLabel) (current_labels : List String)
    (category : Category) (inbox_settings : List (String × CategoryInboxSetting)) :
    Except String BuiltLabelUpdate :=
  let current_categories :=
    current_labels.filter (fun c => strContainsSub c "CATEGORY_")
  let categories_to_add := category.gmail_categories
  let categories_to_remove :=
    current_categories.filter (fun c => !(categories_to_add.contains c))
  -- lines 628-635: `skip_inbox` handling is commented out in the source;
  -- only `mark_spam` extends the additions
  let categories_to_add :=
    match inbox_settings.find? (fun kv => kv.1 = category.mail_label) with
    | some (_, setting) =>
      if setting.mark_spam then categories_to_add ++ ["SPAM"] else categories_to_add
    | none => categories_to_add
  -- lines 637-641: look up the label id of the category's mail label
  match user_labels.find? (fun l : GmailLabel => l.name == some category.mail_label) with
  | none => Except.error ("Could not find " ++ category.mail_label ++ "!")
  | some l =>
    let label_id := l.id.getD ""
    let label_ids := categories_to_add ++ [label_id]
    let label_names := categories_to_add ++ [category.mail_label]
    let label_ids :=
      if category.important.getD false then label_ids ++ ["IMPORTANT"] else label_ids
    let label_names :=
      if category.important.getD false then label_names ++ ["IMPORTANT"] else label_names
    Except.ok
      { addLabelIds := label_ids
        removeLabelIds := categories_to_remove
        update :=
          { added := if label_names.isEmpty then none else some label_names
            removed :=
              if categories_to_remove.isEmpty then none else some categories_to_remove } }

/-! ### Label configuration (src/server/src/email/client.rs lines 316-448)

Embedding of `EmailClient::configure_labels_if_needed`.  `get_labels()`'s
response is the argument `mailbox_labels`; the `create_label` calls only leave
the process, so the embedding returns the names the call would create together
with the `bool` the function returns. -/

def configure_labels_if_needed (mailbox_labels : List GmailLabel)
    (categories heuristics : List Category) : Bool × List String :=
  let existing_labels :=
    mailbox_labels.filter
      (fun l : GmailLabel =>
        match l.name with
        | some n => strContainsSub n "mailclerk:"
        | none => false)
  -- lines 330-341: required = category ∪ heuristic mail labels,
  -- plus the Unknown and Daily-summary labels (HashSet: deduplicated)
  let required_labels :=
    (((categories ++ heuristics).map Category.mail_label)
      ++ [UNKNOWN_CATEGORY.mail_label, DAILY_SUMMARY_CATEGORY.mail_label]).dedup
  let existing_label_names :=
    existing_labels.map (fun l : GmailLabel => l.name.getD "")
  let missing_labels :=
    required_labels.filter (fun r => !(existing_label_names.contains r))
  let unneeded_labels :=
    existing_label_names.filter (fun n => !(required_labels.contains n))
  if missing_labels.isEmpty ∧ unneeded_labels.isEmpty then
    (false, [])
  else
    -- lines 384-415: the labels (re-)created are only the category and
    -- heuristic mail labels (an IndexSet: deduplicated)
    (true, ((categories ++ heuristics).map Category.mail_label).dedup)

/-! ### Message id conversion (email_processor.rs lines 703-710)

`parse_id_to_int` is `u128::from_str_radix(&id, 16).expect(...)`; the panic
of `expect` is embedded as `none`.  Rust's `from_str_radix` accepts an
optional leading `+`, requires at least one digit afterwards, accepts the
hexadecimal digits `0-9`, `a-f`, `A-F`, and fails on overflow past
`u128::MAX`.  `parse_int_to_id` is `format!("{:x}", id)`: the canonical
lowercase hexadecimal representation without leading zeros. -/

/-- Value of one hexadecimal digit, as `char::to_digit(16)` computes it. -/
def hexDigitVal? (c : Char) : Option Nat :=
  if '0' ≤ c ∧ c ≤ '9' then some (c.toNat - '0'.toNat)
  else if 'a' ≤ c ∧ c ≤ 'f' then some (c.toNat - 'a'.toNat + 10)
  else if 'A' ≤ c ∧ c ≤ 'F' then some (c.toNat - 'A'.toNat + 10)
  else none

/-- Accumulating digit loop of `from_str_radix`: each step multiplies by the
radix and adds the digit, failing on an invalid digit.  The final overflow
check against `2^128` reproduces the `checked_mul`/`checked_add` failures. -/
def parseHexAux (acc : Nat) : List Char → Option Nat
  | [] => some acc
  | c :: rest =>
    match hexDigitVal? c with
    | some d => parseHexAux (acc * 16 + d) rest
    | none => none

/-- Sign handling of `from_str_radix` on an unsigned type: a leading `+` is
skipped (a leading `-` simply fails later, `-` not being a hex digit). -/
def stripPlus (cs : List Char) : List Char :=
  match cs with
  | [] => []
  | c :: rest => if c = '+' then rest else c :: rest

/-- Embedding of `u128::from_str_radix(s, 16)`. -/
def fromStrRadix16 (s : String) : Option Nat :=
  let digits := stripPlus s.toList
  if digits.isEmpty then none
  else
    match parseHexAux 0 digits with
    | some v => if v < 2 ^ 128 then some v else none
    | none => none

/-- Embedding of `parse_id_to_int` (email_processor.rs lines 703-706); the
`expect` panic on an unparsable id is `none`. -/
def parse_id_to_int (id : String) : Option Nat :=
  fromStrRadix16 id

/-- Hexadecimal digits of `n`, least significant first, lowercase
(`Nat.digitChar` yields `'0'`-`'9'`, `'a'`-`'f'` below 16).  Fuel-based
structural recursion in the style of core's `Nat.toDigitsCore`; any
`fuel ≥ n` yields all digits. -/
def hexDigitsRevAux (fuel n : Nat) : List Char :=
  match fuel, n with
  | _, 0 => []
  | 0, _ => []
  | fuel + 1, n => Nat.digitChar (n % 16) :: hexDigitsRevAux fuel (n / 16)

def hexDigitsRev (n : Nat) : List Char :=
  hexDigitsRevAux n n

/-- Embedding of `parse_int_to_id` (email_processor.rs lines 708-710):
`format!("{:x}", id)`. -/
def parse_int_to_id (id : Nat) : String :=
  if id = 0 then "0" else String.mk (hexDigitsRev id).reverse

/-- A valid base-16 representation of a 128-bit unsigned integer, following
the spec's words for claim C10: after an optional leading `+` the string is a
non-empty run of hexadecimal digits whose value fits in `u128`.  The value is
computed most-significant-first with explicit powers, independently of the
accumulator loop of `fromStrRadix16`. -/
def hexValueOf : List Char → Nat
  | [] => 0
  | c :: rest => ((hexDigitVal? c).getD 0) * 16 ^ rest.length + hexValueOf rest

def isValidHexU128 (s : String) : Prop :=
  stripPlus s.toList ≠ [] ∧ (∀ c ∈ stripPlus s.toList, (hexDigitVal? c).isSome) ∧
    hexValueOf (stripPlus s.toList) < 2 ^ 128

instance (s : String) : Decidable (isValidHexU128 s) := by
  unfold isValidHexU128
  exact inferInstance

/-! ## Lemmas about the processor state machine -/

lemma applyProcOp_cancelled_mono (dq : Int) (p : EmailProcessor) (op : ProcOp)
    (h : p.cancelled = true) : (applyProcOp dq p op).cancelled = true := by
  cases op with
  | process_email priority outcome =>
    simp [applyProcOp, EmailProcessor.process_email, EmailProcessor.is_cancelled, h]
  | _ =>
    simp [applyProcOp, EmailProcessor.cancel, EmailProcessor.fail,
      EmailProcessor.reset_quota, EmailProcessor.set_token_count,
      EmailProcessor.fetch_add_token_count, EmailProcessor.fetch_add_total_emails_processed,
      EmailProcessor.fetch_add_total_emails_failed, h]

lemma applyProcOp_failed_mono (dq : Int) (p : EmailProcessor) (op : ProcOp)
    (h : p.failed = true) : (applyProcOp dq p op).failed = true := by
  cases op with
  | process_email priority outcome =>
    simp [applyProcOp, EmailProcessor.process_email, EmailProcessor.is_failed, h]
  | _ =>
    simp [applyProcOp, EmailProcessor.cancel, EmailProcessor.fail,
      EmailProcessor.reset_quota, EmailProcessor.set_token_count,
      EmailProcessor.fetch_add_token_count, EmailProcessor.fetch_add_total_emails_processed,
      EmailProcessor.fetch_add_total_emails_failed, h]

lemma applyProcOps_cancelled_mono (dq : Int) (ops : List ProcOp) (p : EmailProcessor)
    (h : p.cancelled = true) : (applyProcOps dq ops p).cancelled = true := by
  induction ops generalizing p with
  | nil => exact h
  | cons op rest ih => exact ih _ (applyProcOp_cancelled_mono dq p op h)

lemma applyProcOps_failed_mono (dq : Int) (ops : List ProcOp) (p : EmailProcessor)
    (h : p.failed = true) : (applyProcOps dq ops p).failed = true := by
  induction ops generalizing p with
  | nil => exact h
  | cons op rest ih => exact ih _ (applyProcOp_failed_mono dq p op h)

lemma status_terminal_of_flag (dq : Int) (p : EmailProcessor) (hp lp : Nat)
    (h : p.cancelled = true ∨ p.failed = true) :
    terminalStatus (p.status dq hp lp) = true := by
  unfold EmailProcessor.status
  split_ifs with h1 h2 h3 h4 h5
  · decide
  · decide
  · decide
  · rcases h with h | h
    · exact absurd h (by simpa [EmailProcessor.is_cancelled] using h1)
    · exact absurd h (by simpa [EmailProcessor.is_failed] using h3)
  · rcases h with h | h
    · exact absurd h (by simpa [EmailProcessor.is_cancelled] using h1)
    · exact absurd h (by simpa [EmailProcessor.is_failed] using h3)
  · rcases h with h | h
    · exact absurd h (by simpa [EmailProcessor.is_cancelled] using h1)
    · exact absurd h (by simpa [EmailProcessor.is_failed] using h3)

/-! ## Claims C6 and C7 -/

/-- Claim C6, counterexample: the claim quantifies over all listed operations,
`reset_quota` included.  A processor whose token count has reached the daily
quota (here `dq = 1000000`) reports the terminal status `QuotaExceeded`, yet a
subsequent `reset_quota` (which stores 0 into `token_count`,
email_processor.rs lines 365-367) brings `status()` back to `Idle`, leaving
the terminal set. -/
theorem claim_C6_counterexample :
    EmailProcessor.status 1000000
        { processed_email_count := 0, failed_email_count := 0, token_count := 1000000,
          cancelled := false, failed := false } 0 0 = ProcessorStatus.QuotaExceeded ∧
      terminalStatus (EmailProcessor.status 1000000
        { processed_email_count := 0, failed_email_count := 0, token_count := 1000000,
          cancelled := false, failed := false } 0 0) = true ∧
      EmailProcessor.status 1000000
        (applyProcOp 1000000
          { processed_email_count := 0, failed_email_count := 0, token_count := 1000000,
            cancelled := false, failed := false } ProcOp.reset_quota) 0 0 =
        ProcessorStatus.Idle ∧
      terminalStatus (EmailProcessor.status 1000000
        (applyProcOp 1000000
          { processed_email_count := 0, failed_email_count := 0, token_count := 1000000,
            cancelled := false, failed := false } ProcOp.reset_quota) 0 0) = false := by
  decide

/-- Claim C6, amended: of the three terminal statuses only `Cancelled` and
`Failed` are monotone.  The `cancelled` and `failed` flags are never cleared
by any operation, so once either flag is set, `status()` stays in the
terminal set `{Cancelled, QuotaExceeded, Failed}` under every sequence of the
listed operations; `QuotaExceeded` alone is not monotone, since `reset_quota`
and `set_token_count` can lower the token count below the quota. -/
theorem claim_C6_amended (dq : Int) (ops : List ProcOp) (p : EmailProcessor) (hp lp : Nat)
    (h : p.cancelled = true ∨ p.failed = true) :
    terminalStatus ((applyProcOps dq ops p).status dq hp lp) = true := by
  apply status_terminal_of_flag
  rcases h with h | h
  · exact Or.inl (applyProcOps_cancelled_mono dq ops p h)
  · exact Or.inr (applyProcOps_failed_mono dq ops p h)

/-- Claim C6, witness for the amended theorem. -/
theorem claim_C6_witness :
    terminalStatus ((applyProcOps 7 [ProcOp.reset_quota, ProcOp.process_email Priority.High
        (ProcOutcome.success 3 none)]
      { processed_email_count := 0, failed_email_count := 0, token_count := 0,
        cancelled := true, failed := false }).status 7 0 0) = true :=
  claim_C6_amended 7 [ProcOp.reset_quota, ProcOp.process_email Priority.High
      (ProcOutcome.success 3 none)]
    { processed_email_count := 0, failed_email_count := 0, token_count := 0,
      cancelled := true, failed := false } 0 0 (Or.inl rfl)

/-- Claim C7: `process_email(id, Low)` on a processor whose remaining quota
`dq - token_count` is strictly below 100000 returns immediately: the state is
unchanged and `run_email_processes` (fetch, classifier, database writes) is
never invoked (email_processor.rs lines 524-527; the guard of lines 519-522
returns the same way). -/
theorem claim_C7 (dq : Int) (p : EmailProcessor) (outcome : ProcOutcome)
    (h : dq - p.current_token_usage < 100000) :
    p.process_email dq Priority.Low outcome = (p, false) := by
  unfold EmailProcessor.process_email
  split_ifs with h1 h2
  · rfl
  · rfl
  · exact absurd h (by simpa using h2)

/-- Claim C7, witness. -/
theorem claim_C7_witness :
    EmailProcessor.process_email 50
      { processed_email_count := 0, failed_email_count := 0, token_count := 0,
        cancelled := false, failed := false } Priority.Low (ProcOutcome.success 5 none) =
      (⟨0, 0, 0, false, false⟩, false) :=
  claim_C7 50
    { processed_email_count := 0, failed_email_count := 0, token_count := 0,
      cancelled := false, failed := false } (ProcOutcome.success 5 none) (by decide)

/-! ## Lemmas about the classification pipeline -/

/-- The `ai_answer` column of the row that `parse_and_prompt_email` inserts is
the post-confidence-gate category content. -/
lemma insert_row_ai_answer (categories heuristics : List Category) (th : ℚ) (tm : Bool)
    (p : EmailProcessor) (msg : EmailMessageData) (resp : CategoryPromptResponse)
    (trainingRes : Except String Unit) (labelRes : Except String LabelUpdate)
    (repairRes : Except String Bool) (insertRes : InsertOutcome) (row : ProcessedEmailRow)
    (hrow : (parse_and_prompt_email categories heuristics th tm p msg (Except.ok resp)
        trainingRes labelRes repairRes insertRes).insert_row = some row) :
    row.ai_answer = if resp.confidence < th then "Unknown" else resp.category := by
  cases labelRes with
  | error e =>
    simp only [parse_and_prompt_email] at hrow
    split at hrow <;> simp at hrow
  | ok lu =>
    cases insertRes with
    | ok =>
      simp only [parse_and_prompt_email] at hrow
      split at hrow
      · simp at hrow
      · obtain rfl := Option.some_inj.mp hrow
        rfl
    | dbErr code =>
      simp only [parse_and_prompt_email] at hrow
      split at hrow
      · simp at hrow
      · split at hrow
        · obtain rfl := Option.some_inj.mp hrow
          rfl
        · obtain rfl := Option.some_inj.mp hrow
          rfl

/-! ## Claims C3 and C5 -/

/-- Claim C3, counterexample: with the configured threshold and the response
confidence both 1/2, the code's strict comparison
`confidence < cfg.model.email_confidence_threshold` (email_processor.rs line
396) does not fire, so the category is NOT overridden to "Unknown": the
`ProcessedEmail` row keeps `ai_answer = "Advertisement"` and the
advertisement category's label. -/
theorem claim_C3_counterexample :
    (parse_and_prompt_email [⟨"Advertisement", "mailclerk:ads", [], none⟩] []
        ((1 : ℚ)) false ⟨0, 0, 0, false, false⟩ ⟨"m1", [], none⟩
        (Except.ok ⟨"Advertisement", (1 : ℚ), 42⟩) (Except.ok ())
        (Except.ok ⟨none, none⟩) (Except.ok true) InsertOutcome.ok).insert_row =
      some ⟨"m1", none, none, "mailclerk:ads", "Advertisement"⟩ ∧
      "Advertisement" ≠ "Unknown" := by
  constructor
  · decide
  · decide

/-- Claim C3, amended: the category is overridden to "Unknown" exactly when
the confidence is strictly below the configured threshold; a confidence
exactly equal to the threshold keeps the model's category (the code compares
with `<`, email_processor.rs line 396). -/
theorem claim_C3_amended (categories heuristics : List Category) (th : ℚ) (tm : Bool)
    (p : EmailProcessor) (msg : EmailMessageData) (resp : CategoryPromptResponse)
    (trainingRes : Except String Unit) (labelRes : Except String LabelUpdate)
    (repairRes : Except String Bool) (insertRes : InsertOutcome) (row : ProcessedEmailRow)
    (hrow : (parse_and_prompt_email categories heuristics th tm p msg (Except.ok resp)
        trainingRes labelRes repairRes insertRes).insert_row = some row) :
    (resp.confidence = th → row.ai_answer = resp.category) ∧
      (resp.confidence < th → row.ai_answer = "Unknown") := by
  have h := insert_row_ai_answer categories heuristics th tm p msg resp trainingRes
    labelRes repairRes insertRes row hrow
  constructor
  · intro heq
    rw [h, if_neg (by rw [heq]; exact lt_irrefl th)]
  · intro hlt
    rw [h, if_pos hlt]

/-- Claim C3, witness for the amended theorem. -/
theorem claim_C3_witness :
    ((1 : ℚ) = (1 : ℚ) →
      (⟨"m1", none, none, "mailclerk:ads", "Advertisement"⟩ : ProcessedEmailRow).ai_answer =
        "Advertisement") ∧
      ((1 : ℚ) < (1 : ℚ) →
        (⟨"m1", none, none, "mailclerk:ads", "Advertisement"⟩ : ProcessedEmailRow).ai_answer =
          "Unknown") :=
  claim_C3_amended [⟨"Advertisement", "mailclerk:ads", [], none⟩] [] ((1 : ℚ)) false
    ⟨0, 0, 0, false, false⟩ ⟨"m1", [], none⟩ ⟨"Advertisement", (1 : ℚ), 42⟩
    (Except.ok ()) (Except.ok ⟨none, none⟩) (Except.ok true) InsertOutcome.ok
    ⟨"m1", none, none, "mailclerk:ads", "Advertisement"⟩ (by decide)

/-- Claim C5, counterexample: a database error on the `ProcessedEmail` insert
whose SQL code is not 23505 (here 40001) is only logged (email_processor.rs
lines 496-498): the call still returns `Ok(token_usage)` and the processor's
`failed` flag is untouched, so the processor does NOT escalate to the Failed
state as the claim asserts. -/
theorem claim_C5_counterexample :
    (parse_and_prompt_email [] [] 0 false ⟨0, 0, 0, false, false⟩ ⟨"m1", [], none⟩
        (Except.ok ⟨"Advertisement", 1, 42⟩) (Except.ok ()) (Except.ok ⟨none, none⟩)
        (Except.ok true) (InsertOutcome.dbErr (some 40001))).result = Except.ok 42 ∧
      (parse_and_prompt_email [] [] 0 false ⟨0, 0, 0, false, false⟩ ⟨"m1", [], none⟩
        (Except.ok ⟨"Advertisement", 1, 42⟩) (Except.ok ()) (Except.ok ⟨none, none⟩)
        (Except.ok true) (InsertOutcome.dbErr (some 40001))).processor.failed = false := by
  constructor
  · decide
  · decide

/-- Claim C5, amended: on the `ProcessedEmail` insert, a unique-violation
(code 23505) is downgraded to the "already processed" warning, and every
other database error is logged as an error; in both cases the error is not
re-raised: the call completes with `Ok(token_usage)` and the processor state
(in particular its `failed` flag) is unchanged.  No database error on this
insert escalates the processor to Failed. -/
theorem claim_C5_amended (categories heuristics : List Category) (th : ℚ) (tm : Bool)
    (p : EmailProcessor) (msg : EmailMessageData) (resp : CategoryPromptResponse)
    (lu : LabelUpdate) (repairRes : Except String Bool) (code : Option Nat) :
    (parse_and_prompt_email categories heuristics th tm p msg (Except.ok resp)
        (Except.ok ()) (Except.ok lu) repairRes (InsertOutcome.dbErr code)).result =
        Except.ok resp.token_usage ∧
      (parse_and_prompt_email categories heuristics th tm p msg (Except.ok resp)
        (Except.ok ()) (Except.ok lu) repairRes (InsertOutcome.dbErr code)).processor = p ∧
      (parse_and_prompt_email categories heuristics th tm p msg (Except.ok resp)
        (Except.ok ()) (Except.ok lu) repairRes
        (InsertOutcome.dbErr code)).warned_already_processed =
        decide (code = some 23505) := by
  simp only [parse_and_prompt_email]
  rw [if_neg (by simp [Except.isOk, Except.toBool])]
  by_cases hc : code = some 23505
  · rw [if_pos hc]
    exact ⟨rfl, rfl, by simp [hc]⟩
  · rw [if_neg hc]
    exact ⟨rfl, rfl, by simp [hc]⟩

/-! ## Claim C4 -/

/-- The removeLabelIds list computed by `build_label_update` is always the
list of current provider-category labels not contained in the applied
category's `gmail_categories` (client.rs lines 614-626); no emptiness guard
exists. -/
lemma build_label_update_removeLabelIds (user_labels : List GmailLabel)
    (current_labels : List String) (category : Category)
    (inbox_settings : List (String × CategoryInboxSetting)) (r : BuiltLabelUpdate)
    (hok : build_label_update user_labels current_labels category inbox_settings =
      Except.ok r) :
    r.removeLabelIds = (current_labels.filter (fun c => strContainsSub c "CATEGORY_")).filter
      (fun c => !(category.gmail_categories.contains c)) := by
  simp only [build_label_update] at hok
  split at hok
  · simp at hok
  · obtain rfl := (Except.ok.inj hok).symm
    rfl

/-- Claim C4, counterexample: applying a category whose `gmail_categories`
list is empty to a message currently labelled `CATEGORY_SOCIAL` produces
`removeLabelIds = ["CATEGORY_SOCIAL"]`, not the empty list: the message IS
stripped of its last provider category. -/
theorem claim_C4_counterexample :
    build_label_update [⟨some "Label_10", some "mailclerk:ads"⟩] ["CATEGORY_SOCIAL"]
        ⟨"Advertisement", "mailclerk:ads", [], none⟩ [] =
      Except.ok ⟨["Label_10"], ["CATEGORY_SOCIAL"],
        ⟨some ["mailclerk:ads"], some ["CATEGORY_SOCIAL"]⟩⟩ ∧
      (["CATEGORY_SOCIAL"] : List String) ≠ [] := by
  constructor
  · rfl
  · decide

/-- Claim C4, amended: `build_label_update` removes every current provider
category (label matching `CATEGORY_+`) that is not among the applied
category's `gmail_categories`, with no emptiness guard; in particular when
`gmail_categories` is empty, `removeLabelIds` is the full list of current
provider categories. -/
theorem claim_C4_amended (user_labels : List GmailLabel) (current_labels : List String)
    (category : Category) (inbox_settings : List (String × CategoryInboxSetting))
    (r : BuiltLabelUpdate)
    (hempty : category.gmail_categories = [])
    (hok : build_label_update user_labels current_labels category inbox_settings =
      Except.ok r) :
    r.removeLabelIds = current_labels.filter (fun c => strContainsSub c "CATEGORY_") := by
  rw [build_label_update_removeLabelIds user_labels current_labels category inbox_settings
    r hok, hempty]
  simp

/-- Claim C4, witness for the amended theorem. -/
theorem claim_C4_witness :
    (⟨["Label_10"], ["CATEGORY_SOCIAL"],
        ⟨some ["mailclerk:ads"], some ["CATEGORY_SOCIAL"]⟩⟩ : BuiltLabelUpdate).removeLabelIds =
      (["CATEGORY_SOCIAL", "other"].filter (fun c => strContainsSub c "CATEGORY_")) :=
  claim_C4_amended [⟨some "Label_10", some "mailclerk:ads"⟩] ["CATEGORY_SOCIAL", "other"]
    ⟨"Advertisement", "mailclerk:ads", [], none⟩ []
    ⟨["Label_10"], ["CATEGORY_SOCIAL"], ⟨some ["mailclerk:ads"], some ["CATEGORY_SOCIAL"]⟩⟩
    rfl (by rfl)

/-! ## Claim C9 -/

/-- Claim C9, code-bug evidence: `configure_labels_if_needed` returns `true`
on EVERY input, for every mailbox label state and configuration — it never
converges.  The required-label set always contains "uncategorized"
(`UNKNOWN_CATEGORY.mail_label`, client.rs line 338), but the existing-label
set only retains label names containing the substring "mailclerk:" (client.rs
line 321), which "uncategorized" never satisfies, and the labels the function
creates (client.rs lines 384-415) are only the category and heuristic mail
labels — never "uncategorized" or "daily_summary".  Hence `missing_labels` is
never empty and the `Ok(false)` branch (line 372, "Labels are already
configured") is unreachable. -/
theorem claim_C9_never_converges (mailbox_labels : List GmailLabel)
    (categories heuristics : List Category) :
    (configure_labels_if_needed mailbox_labels categories heuristics).1 = true := by
  have hnotin : UNKNOWN_CATEGORY.mail_label ∉
      (mailbox_labels.filter fun l : GmailLabel =>
        match l.name with
        | some n => strContainsSub n "mailclerk:"
        | none => false).map (fun l : GmailLabel => l.name.getD "") := by
    intro hmem'
    obtain ⟨l, hl, hname⟩ := List.mem_map.mp hmem'
    have hpred := (List.mem_filter.mp hl).2
    cases hn : l.name with
    | none => rw [hn] at hpred; simp at hpred
    | some n =>
      rw [hn] at hpred hname
      simp only [Option.getD_some] at hname
      rw [hname] at hpred
      exact absurd hpred (by decide)
  simp only [configure_labels_if_needed]
  split
  next hcond =>
    exfalso
    have hempty := hcond.1
    have hmem : UNKNOWN_CATEGORY.mail_label ∈
        ((((categories ++ heuristics).map Category.mail_label)
          ++ [UNKNOWN_CATEGORY.mail_label, DAILY_SUMMARY_CATEGORY.mail_label]).dedup.filter
            (fun r => !((mailbox_labels.filter fun l : GmailLabel =>
              match l.name with
              | some n => strContainsSub n "mailclerk:"
              | none => false).map (fun l : GmailLabel => l.name.getD "")).contains r)) := by
      apply List.mem_filter.mpr
      refine ⟨List.mem_dedup.mpr (by simp), ?_⟩
      simpa using hnotin
    rw [List.isEmpty_iff] at hempty
    rw [hempty] at hmem
    exact absurd hmem (List.not_mem_nil _)
  next => rfl

/-! ## Lemmas about the message-id conversion -/

lemma hexDigitVal?_digitChar (d : Nat) (h : d < 16) :
    hexDigitVal? (Nat.digitChar d) = some d := by
  interval_cases d <;> decide

lemma digitChar_ne_plus (d : Nat) (h : d < 16) : Nat.digitChar d ≠ '+' := by
  interval_cases d <;> decide

lemma parseHexAux_append (acc : Nat) (l1 l2 : List Char) :
    parseHexAux acc (l1 ++ l2) =
      match parseHexAux acc l1 with
      | some v => parseHexAux v l2
      | none => none := by
  induction l1 generalizing acc with
  | nil => rfl
  | cons c rest ih =>
    simp only [List.cons_append, parseHexAux]
    cases h : hexDigitVal? c with
    | some d => exact ih (acc * 16 + d)
    | none => rfl

lemma parseHex_hexDigitsRevAux (fuel : Nat) :
    ∀ n, n ≤ fuel → ∀ acc,
      parseHexAux acc ((hexDigitsRevAux fuel n).reverse) =
        some (acc * 16 ^ (hexDigitsRevAux fuel n).length + n) := by
  induction fuel with
  | zero =>
    intro n hn acc
    interval_cases n
    simp [hexDigitsRevAux, parseHexAux]
  | succ fuel ih =>
    intro n hn acc
    match n with
    | 0 => simp [hexDigitsRevAux, parseHexAux]
    | Nat.succ m =>
      have hdiv_le : (m + 1) / 16 ≤ fuel := by omega
      have hrw : hexDigitsRevAux (fuel + 1) (m + 1) =
          Nat.digitChar ((m + 1) % 16) :: hexDigitsRevAux fuel ((m + 1) / 16) := rfl
      rw [hrw, List.reverse_cons, parseHexAux_append, ih ((m + 1) / 16) hdiv_le acc]
      have hmod : (m + 1) % 16 < 16 := Nat.mod_lt _ (by omega)
      show parseHexAux _ [Nat.digitChar ((m + 1) % 16)] = _
      simp only [parseHexAux, hexDigitVal?_digitChar _ hmod]
      congr 1
      rw [List.length_cons, pow_succ]
      have harith : (m + 1) / 16 * 16 + (m + 1) % 16 = m + 1 := by omega
      calc (acc * 16 ^ (hexDigitsRevAux fuel ((m + 1) / 16)).length + (m + 1) / 16) * 16 +
            (m + 1) % 16
          = acc * (16 ^ (hexDigitsRevAux fuel ((m + 1) / 16)).length * 16) +
            ((m + 1) / 16 * 16 + (m + 1) % 16) := by ring
        _ = acc * (16 ^ (hexDigitsRevAux fuel ((m + 1) / 16)).length * 16) + (m + 1) := by
            rw [harith]

lemma hexDigitsRevAux_ne_plus (fuel : Nat) :
    ∀ n, ∀ c ∈ hexDigitsRevAux fuel n, c ≠ '+' := by
  induction fuel with
  | zero =>
    intro n c hc
    match n with
    | 0 => simp [hexDigitsRevAux] at hc
    | Nat.succ m => simp [hexDigitsRevAux] at hc
  | succ fuel ih =>
    intro n c hc
    match n with
    | 0 => simp [hexDigitsRevAux] at hc
    | Nat.succ m =>
      rw [show hexDigitsRevAux (fuel + 1) (m + 1) =
          Nat.digitChar ((m + 1) % 16) :: hexDigitsRevAux fuel ((m + 1) / 16) from rfl] at hc
      rcases List.mem_cons.mp hc with h | h
      · rw [h]; exact digitChar_ne_plus _ (Nat.mod_lt _ (by omega))
      · exact ih _ c h

/-- The first direction of the round-trip: formatting then parsing is the
identity on every value that fits in `u128`. -/
lemma parse_format_roundtrip (n : Nat) (h : n < 2 ^ 128) :
    parse_id_to_int (parse_int_to_id n) = some n := by
  match hn : n with
  | 0 => decide
  | Nat.succ m =>
    have hne : hexDigitsRev (m + 1) = Nat.digitChar ((m + 1) % 16) ::
        hexDigitsRevAux m ((m + 1) / 16) := rfl
    obtain ⟨c, cs', hrev⟩ : ∃ c cs', (hexDigitsRev (m + 1)).reverse = c :: cs' := by
      cases hr : (hexDigitsRev (m + 1)).reverse with
      | nil =>
        exfalso
        have := List.reverse_eq_nil_iff.mp hr
        rw [hne] at this
        exact List.cons_ne_nil _ _ this
      | cons c cs' => exact ⟨c, cs', rfl⟩
    have hcmem : c ∈ hexDigitsRev (m + 1) := by
      rw [← List.mem_reverse, hrev]; exact List.mem_cons_self _ _
    have hcne : c ≠ '+' := hexDigitsRevAux_ne_plus (m + 1) (m + 1) c hcmem
    have hstrip : stripPlus ((hexDigitsRev (m + 1)).reverse) =
        (hexDigitsRev (m + 1)).reverse := by
      rw [hrev]; simp [stripPlus, hcne]
    have htoList : (String.mk ((hexDigitsRev (m + 1)).reverse)).toList =
        (hexDigitsRev (m + 1)).reverse := rfl
    have hid : parse_int_to_id (m + 1) = String.mk ((hexDigitsRev (m + 1)).reverse) := by
      simp [parse_int_to_id]
    rw [hid]
    show fromStrRadix16 _ = _
    rw [fromStrRadix16, htoList, hstrip]
    have hnonempty : ((hexDigitsRev (m + 1)).reverse).isEmpty = false := by
      rw [hrev]; rfl
    rw [if_neg (by simp [hnonempty])]
    have hparse := parseHex_hexDigitsRevAux (m + 1) (m + 1) (le_refl _) 0
    rw [show hexDigitsRev (m + 1) = hexDigitsRevAux (m + 1) (m + 1) from rfl, hparse]
    simp only [zero_mul, zero_add]
    rw [if_pos h]

/-- Values returned by `parse_id_to_int` always fit in `u128`. -/
lemma parse_id_to_int_lt (s : String) (v : Nat) (h : parse_id_to_int s = some v) :
    v < 2 ^ 128 := by
  rw [parse_id_to_int, fromStrRadix16] at h
  split at h
  · exact absurd h (by simp)
  · cases hp : parseHexAux 0 (stripPlus s.toList) with
    | none => rw [hp] at h; exact absurd h (by simp)
    | some w =>
      rw [hp] at h
      simp only [] at h
      split at h
      · obtain rfl := Option.some_inj.mp h
        assumption
      · exact absurd h (by simp)

/-! ## Claims C8 and C10 -/

/-- Claim C8, counterexample: the string-side round-trip fails on valid hex
strings that are not canonical: "A" parses to 10, but 10 formats back to the
lowercase "a" (`format!("{:x}", _)`), not "A". -/
theorem claim_C8_counterexample :
    parse_id_to_int "A" = some 10 ∧ parse_int_to_id 10 = "a" ∧ ("a" : String) ≠ "A" := by
  refine ⟨by decide, by decide, by decide⟩

/-- Claim C8, amended: `parse_id_to_int (parse_int_to_id n) = n` holds for
every `n` that fits in `u128` (the whole domain of the Rust `u128`);
in the other direction, parsing an arbitrary valid hexadecimal string and
formatting back recovers the parsed value (hence formatting and re-parsing is
stable), but not necessarily the original string, which may use uppercase
digits, leading zeros, or a leading `+`. -/
theorem claim_C8_amended :
    (∀ n : Nat, n < 2 ^ 128 → parse_id_to_int (parse_int_to_id n) = some n) ∧
      (∀ (s : String) (v : Nat), parse_id_to_int s = some v →
        parse_id_to_int (parse_int_to_id v) = some v) := by
  refine ⟨fun n h => parse_format_roundtrip n h, fun s v h => ?_⟩
  exact parse_format_roundtrip v (parse_id_to_int_lt s v h)

/-- Claim C8, witness for the amended theorem. -/
theorem claim_C8_witness : parse_id_to_int (parse_int_to_id 48879) = some 48879 :=
  claim_C8_amended.1 48879 (by decide)

/-- Claim C10: `parse_id_to_int` returns a value exactly on the strings that
are a valid base-16 representation of a 128-bit unsigned integer (after an
optional leading `+`: non-empty, all hexadecimal digits, value below
`2^128`), and panics (`expect`, embedded as `none`) on every other input —
the empty string, any string with a non-hex character, and any value
overflowing `u128`. -/
theorem claim_C10_partiality (s : String) :
    (parse_id_to_int s).isSome = true ↔ isValidHexU128 s := by
  rw [parse_id_to_int, fromStrRadix16, isValidHexU128]
  constructor
  · intro h
    split at h
    · exact absurd h (by simp)
    · next hne =>
      refine ⟨by simpa [List.isEmpty_iff] using hne, ?_⟩
      cases hp : parseHexAux 0 (stripPlus s.toList) with
      | none => rw [hp] at h; exact absurd h (by simp)
      | some w =>
        rw [hp] at h
        simp only [] at h
        split at h
        · next hlt =>
          have hval : ∀ acc l, parseHexAux acc l = some w →
              (∀ c ∈ l, (hexDigitVal? c).isSome) ∧ acc * 16 ^ l.length + hexValueOf l = w := by
            intro acc l
            induction l generalizing acc with
            | nil =>
              intro hh
              simp only [parseHexAux] at hh
              obtain rfl := Option.some_inj.mp hh
              simp [hexValueOf]
            | cons c rest ih =>
              intro hh
              simp only [parseHexAux] at hh
              cases hd : hexDigitVal? c with
              | none => rw [hd] at hh; exact absurd hh (by simp)
              | some d =>
                rw [hd] at hh
                obtain ⟨hall, hvv⟩ := ih (acc * 16 + d) hh
                refine ⟨?_, ?_⟩
                · intro x hx
                  rcases List.mem_cons.mp hx with h | h
                  · rw [h, hd]; rfl
                  · exact hall x h
                · rw [← hvv]
                  simp only [hexValueOf, List.length_cons, hd, Option.getD_some]
                  rw [pow_succ]
                  ring
          obtain ⟨hall, hvv⟩ := hval 0 (stripPlus s.toList) hp
          refine ⟨hall, ?_⟩
          rw [show hexValueOf (stripPlus s.toList) = w by omega]
          exact hlt
        · exact absurd h (by simp)
  · rintro ⟨hne, hall, hlt⟩
    rw [if_neg (by simpa [List.isEmpty_iff] using hne)]
    have hsome : ∀ acc l, (∀ c ∈ l, (hexDigitVal? c).isSome) →
        parseHexAux acc l = some (acc * 16 ^ l.length + hexValueOf l) := by
      intro acc l
      induction l generalizing acc with
      | nil => intro _; simp [parseHexAux, hexValueOf]
      | cons c rest ih =>
        intro hall'
        have hc := hall' c (List.mem_cons_self _ _)
        cases hd : hexDigitVal? c with
        | none => rw [hd] at hc; exact absurd hc (by simp)
        | some d =>
          simp only [parseHexAux, hd]
          rw [ih (acc * 16 + d) (fun x hx => hall' x (List.mem_cons_of_mem _ hx))]
          congr 1
          simp only [hexValueOf, List.length_cons, hd, Option.getD_some]
          rw [pow_succ]
          ring
    rw [hsome 0 (stripPlus s.toList) hall]
    simp only [zero_mul, zero_add]
    rw [if_pos hlt]
    rfl

/-- Claim C10, witness. -/
theorem claim_C10_witness :
    ((parse_id_to_int "1f").isSome = true ↔ isValidHexU128 "1f") ∧
      (parse_id_to_int "1f").isSome = true ∧
      ((parse_id_to_int "").isSome = true ↔ isValidHexU128 "") ∧
      (parse_id_to_int "").isSome = false :=
  ⟨claim_C10_partiality "1f", by decide, claim_C10_partiality "", by decide⟩

/-! ## Lemmas about the priority queue -/

lemma heapPop_perm (l : List PromptQueueEmailEntry) (e : PromptQueueEmailEntry)
    (rest : List PromptQueueEmailEntry) (h : heapPop l = some (e, rest)) :
    l.Perm (e :: rest) := by
  induction l generalizing e rest with
  | nil => exact absurd h (by simp [heapPop])
  | cons a l' ih =>
    simp only [heapPop] at h
    split at h
    · rw [Option.some_inj] at h
      obtain ⟨rfl, rfl⟩ := Prod.mk.injEq _ _ _ _ ▸ h
      exact List.Perm.refl _
    · split at h
      next x rest' hp =>
        split at h
        · rw [Option.some_inj] at h
          obtain ⟨rfl, rfl⟩ := Prod.mk.injEq _ _ _ _ ▸ h
          exact (List.Perm.cons a (ih x rest' hp)).trans (List.Perm.swap x a rest')
        · rw [Option.some_inj] at h
          obtain ⟨rfl, rfl⟩ := Prod.mk.injEq _ _ _ _ ▸ h
          exact List.Perm.refl _
      next hp =>
        rw [Option.some_inj] at h
        obtain ⟨rfl, rfl⟩ := Prod.mk.injEq _ _ _ _ ▸ h
        exact List.Perm.refl _

lemma heapPop_high (l : List PromptQueueEmailEntry)
    (h : ∃ e ∈ l, e.priority = Priority.High) :
    ∃ e rest, heapPop l = some (e, rest) ∧ e.priority = Priority.High := by
  induction l with
  | nil => obtain ⟨e, he, _⟩ := h; exact absurd he (List.not_mem_nil e)
  | cons a l' ih =>
    by_cases ha : a.priority = Priority.High
    · exact ⟨a, l', by simp [heapPop, ha], ha⟩
    · have hl' : ∃ e ∈ l', e.priority = Priority.High := by
        obtain ⟨e, he, hhigh⟩ := h
        rcases List.mem_cons.mp he with rfl | he'
        · exact absurd hhigh ha
        · exact ⟨e, he', hhigh⟩
      obtain ⟨x, rest', hx, hxhigh⟩ := ih hl'
      exact ⟨x, a :: rest', by simp [heapPop, ha, hx, hxhigh], hxhigh⟩

lemma pop_none_eq (q pq' : PromptPriorityQueue) (h : q.pop = (none, pq')) : pq' = q := by
  rw [PromptPriorityQueue.pop] at h
  cases hp : heapPop q.queue with
  | none => rw [hp] at h; exact ((Prod.mk.injEq _ _ _ _ ▸ h).2).symm ▸ rfl
  | some er =>
    obtain ⟨e, rest⟩ := er
    rw [hp] at h
    exact absurd (Prod.mk.injEq _ _ _ _ ▸ h).1 (by simp)

lemma pop_some_eq (q pq' : PromptPriorityQueue) (e : PromptQueueEmailEntry)
    (h : q.pop = (some e, pq')) :
    ∃ rest, heapPop q.queue = some (e, rest) ∧
      pq' = { queue := rest
              num_in_queue_by_email_address :=
                decrCount e.user_email e.priority q.num_in_queue_by_email_address
              in_processing_set := q.in_processing_set } := by
  rw [PromptPriorityQueue.pop] at h
  cases hp : heapPop q.queue with
  | none => rw [hp] at h; exact absurd (Prod.mk.injEq _ _ _ _ ▸ h).1 (by simp)
  | some er =>
    obtain ⟨x, rest⟩ := er
    rw [hp] at h
    obtain ⟨hx, hpq⟩ := Prod.mk.injEq _ _ _ _ ▸ h
    obtain rfl := Option.some_inj.mp hx
    exact ⟨rest, rfl, hpq.symm⟩

/-! ## The queue system invariant

In every reachable state of the queue-and-workers system, the message ids in
the queue together with the ids held by workers are pairwise distinct, and
each of them is in the in-processing set. -/

def queueIds (q : PromptPriorityQueue) : List Nat :=
  q.queue.map PromptQueueEmailEntry.email_id

def SysInv (s : SystemState) : Prop :=
  (queueIds s.pq ++ s.held).Nodup ∧
    ∀ id ∈ queueIds s.pq ++ s.held, id ∈ s.pq.in_processing_set

lemma sysInv_initial : SysInv initialSystem := by
  constructor
  · simp [queueIds, initialSystem]
  · intro id hid
    simp [queueIds, initialSystem] at hid

lemma sysStep_preserves_inv (s s' : SystemState) (hstep : SysStep s s')
    (hinv : SysInv s) : SysInv s' := by
  obtain ⟨hnd, hmem⟩ := hinv
  cases hstep with
  | push user_email email_id priority =>
    by_cases hm : email_id ∈ s.pq.in_processing_set
    · constructor
      · simpa [PromptPriorityQueue.push, hm] using hnd
      · simpa [PromptPriorityQueue.push, hm] using hmem
    · have hnotin : email_id ∉ s.pq.in_processing_set := hm
      have hq : queueIds (s.pq.push user_email email_id priority).2 =
          email_id :: queueIds s.pq := by
        simp [PromptPriorityQueue.push, hm, queueIds]
      have hip : (s.pq.push user_email email_id priority).2.in_processing_set =
          email_id :: s.pq.in_processing_set := by
        simp [PromptPriorityQueue.push, hm]
      constructor
      · show (queueIds (s.pq.push user_email email_id priority).2 ++ s.held).Nodup
        rw [hq]
        refine List.nodup_cons.mpr ⟨?_, hnd⟩
        intro hmem'
        exact hnotin (hmem email_id hmem')
      · intro id hid
        rw [hip]
        rw [show queueIds (s.pq.push user_email email_id priority).2 ++ s.held =
            email_id :: (queueIds s.pq ++ s.held) by rw [hq]; rfl] at hid
        rcases List.mem_cons.mp hid with rfl | hid'
        · exact List.mem_cons_self _ _
        · exact List.mem_cons_of_mem _ (hmem id hid')
  | pop_some e pq' h =>
    obtain ⟨rest, hp, rfl⟩ := pop_some_eq s.pq pq' e h
    have h2 : (s.pq.queue.map PromptQueueEmailEntry.email_id).Perm
        (e.email_id :: rest.map PromptQueueEmailEntry.email_id) :=
      (heapPop_perm _ _ _ hp).map _
    have hperm : (queueIds s.pq ++ s.held).Perm
        ((rest.map PromptQueueEmailEntry.email_id) ++ (e.email_id :: s.held)) :=
      (h2.append_right s.held).trans List.perm_middle.symm
    constructor
    · exact hperm.nodup hnd
    · intro id hid
      exact hmem id (hperm.symm.subset hid)
  | pop_none pq' h =>
    obtain rfl := pop_none_eq s.pq pq' h
    exact ⟨hnd, hmem⟩
  | finish email_id hheld =>
    have hsub : (queueIds s.pq ++ s.held.erase email_id).Sublist
        (queueIds s.pq ++ s.held) :=
      List.Sublist.append_left (List.erase_sublist email_id s.held) _
    obtain ⟨hndq, hndh, hdisj⟩ := List.nodup_append.mp hnd
    constructor
    · exact hnd.sublist hsub
    · intro id hid
      have hid' : id ∈ queueIds s.pq ++ s.held := hsub.subset hid
      have hin : id ∈ s.pq.in_processing_set := hmem id hid'
      have hne : id ≠ email_id := by
        rcases List.mem_append.mp hid with hq | hh
        · intro heq
          exact hdisj hq (heq ▸ hheld)
        · exact ((List.Nodup.mem_erase_iff hndh).mp hh).1
      show id ∈ s.pq.in_processing_set.filter (fun x => x ≠ email_id)
      exact List.mem_filter.mpr ⟨hin, by simp [hne]⟩

lemma sysReachable_inv (s : SystemState) (h : SysReachable s) : SysInv s := by
  induction h with
  | refl => exact sysInv_initial
  | tail _ hstep ih => exact sysStep_preserves_inv _ _ hstep ih

lemma countIn_bumpCount_self (m : List (String × QueueCount)) (k : String)
    (p : Priority) : countIn (bumpCount k p m) k p = countIn m k p + 1 := by
  induction m with
  | nil => cases p <;> simp [bumpCount, countIn]
  | cons kv rest ih =>
    obtain ⟨k', c⟩ := kv
    by_cases hk : k' = k
    · subst hk
      cases p <;> simp [bumpCount, countIn]
    · simp [bumpCount, countIn, hk, ih]

lemma countIn_bumpCount_other (m : List (String × QueueCount)) (k : String)
    (p : Priority) (k' : String) (p' : Priority) (h : ¬(k' = k ∧ p' = p)) :
    countIn (bumpCount k p m) k' p' = countIn m k' p' := by
  induction m with
  | nil =>
    by_cases hk : k = k'
    · subst hk
      have hp : p' ≠ p := fun hpp => h ⟨rfl, hpp⟩
      cases p <;> cases p' <;> simp_all [bumpCount, countIn]
    · cases p <;> cases p' <;> simp [bumpCount, countIn, hk]
  | cons kv rest ih =>
    obtain ⟨k0, c⟩ := kv
    by_cases hk0 : k0 = k
    · subst hk0
      by_cases hk' : k0 = k'
      · subst hk'
        have hp : p' ≠ p := fun hpp => h ⟨rfl, hpp⟩
        cases p <;> cases p' <;> simp_all [bumpCount, countIn]
      · cases p <;> cases p' <;> simp [bumpCount, countIn, hk']
    · simp [bumpCount, countIn, hk0, ih]

/-! ## Claims C1 and C2 -/

/-- Claim C1: in every reachable state of the queue-and-workers system,
`push` keyed by in-flight (in-processing set) membership behaves as
specified: for an id already in flight (still queued, or popped by a worker
and not yet released) it returns `false` and leaves the whole queue state —
heap contents, every per-email priority counter, in-processing set —
unchanged; for an id not in flight it returns `true`, pushes the entry, adds
the id, and increments exactly the per-email counter of the given priority.
Consequently the message ids of the queued entries are pairwise distinct: no
msg id appears in two entries. -/
theorem claim_C1 (s : SystemState) (hs : SysReachable s) :
    (∀ user_email email_id priority, email_id ∈ s.pq.in_processing_set →
        s.pq.push user_email email_id priority = (false, s.pq)) ∧
      (∀ user_email email_id priority, email_id ∉ s.pq.in_processing_set →
        (s.pq.push user_email email_id priority).1 = true ∧
        (s.pq.push user_email email_id priority).2.queue =
          ⟨user_email, email_id, priority⟩ :: s.pq.queue ∧
        (s.pq.push user_email email_id priority).2.in_processing_set =
          email_id :: s.pq.in_processing_set ∧
        countOf (s.pq.push user_email email_id priority).2 user_email priority =
          countOf s.pq user_email priority + 1 ∧
        (∀ user_email' priority', ¬(user_email' = user_email ∧ priority' = priority) →
          countOf (s.pq.push user_email email_id priority).2 user_email' priority' =
            countOf s.pq user_email' priority')) ∧
      (s.pq.queue.map PromptQueueEmailEntry.email_id).Nodup := by
  have hinv := sysReachable_inv s hs
  refine ⟨?_, ?_, ?_⟩
  · intro user_email email_id priority hm
    simp [PromptPriorityQueue.push, hm]
  · intro user_email email_id priority hm
    refine ⟨by simp [PromptPriorityQueue.push, hm], by simp [PromptPriorityQueue.push, hm],
      by simp [PromptPriorityQueue.push, hm], ?_, ?_⟩
    · show countIn (s.pq.push user_email email_id priority).2.num_in_queue_by_email_address
          user_email priority = _
      rw [show (s.pq.push user_email email_id priority).2.num_in_queue_by_email_address =
        bumpCount user_email priority s.pq.num_in_queue_by_email_address by
          simp [PromptPriorityQueue.push, hm]]
      exact countIn_bumpCount_self _ _ _
    · intro user_email' priority' hne
      show countIn (s.pq.push user_email email_id priority).2.num_in_queue_by_email_address
          user_email' priority' = _
      rw [show (s.pq.push user_email email_id priority).2.num_in_queue_by_email_address =
        bumpCount user_email priority s.pq.num_in_queue_by_email_address by
          simp [PromptPriorityQueue.push, hm]]
      exact countIn_bumpCount_other _ _ _ _ _ hne
  · have := hinv.1
    rw [List.nodup_append] at this
    exact this.1

/-- Claim C1, witness. -/
theorem claim_C1_witness :
    (initialSystem.pq.push "u" 1 Priority.High).1 = true ∧
      countOf (initialSystem.pq.push "u" 1 Priority.High).2 "u" Priority.High =
        countOf initialSystem.pq "u" Priority.High + 1 ∧
      (initialSystem.pq.queue.map PromptQueueEmailEntry.email_id).Nodup := by
  have h := claim_C1 initialSystem Relation.ReflTransGen.refl
  have h2 := h.2.1 "u" 1 Priority.High (by decide)
  exact ⟨h2.1, h2.2.2.2.1, h.2.2⟩

/-- Claim C2: in every reachable state whose queue contains a High-priority
entry, `pop()` returns a High-priority entry — never a Low one — whatever
user the entries belong to (the heap order compares only priority,
priority_queue.rs lines 20-29, so any High entry is a maximum). -/
theorem claim_C2 (s : SystemState) (hs : SysReachable s)
    (hHigh : ∃ e ∈ s.pq.queue, e.priority = Priority.High) :
    ∃ e pq', s.pq.pop = (some e, pq') ∧ e.priority = Priority.High := by
  obtain ⟨e, rest, hpop, hhigh⟩ := heapPop_high s.pq.queue hHigh
  exact ⟨e, ⟨rest, decrCount e.user_email e.priority s.pq.num_in_queue_by_email_address,
    s.pq.in_processing_set⟩, by simp [PromptPriorityQueue.pop, hpop], hhigh⟩

/-- Claim C2, witness: after pushing a Low and then a High entry from the
initial state, `pop` returns the High entry. -/
theorem claim_C2_witness :
    ∃ e pq',
      (SystemState.mk
        ((SystemState.mk (initialSystem.pq.push "u" 1 Priority.Low).2
          initialSystem.held).pq.push "v" 2 Priority.High).2
        (SystemState.mk (initialSystem.pq.push "u" 1 Priority.Low).2
          initialSystem.held).held).pq.pop = (some e, pq') ∧
      e.priority = Priority.High :=
  claim_C2 _
    (Relation.ReflTransGen.tail
      (Relation.ReflTransGen.single (SysStep.push initialSystem "u" 1 Priority.Low))
      (SysStep.push _ "v" 2 Priority.High))
    ⟨⟨"v", 2, Priority.High⟩, by decide, rfl⟩

end MailAssistant
